import Mathlib

/-!
ADS1120 driver (Sniffometer_ADS1120): protocol layer.

A shallow embedding of `src/ADS1120.h` and `src/ADS1120.cpp`.

The driver talks to three collaborators (the SPI bus, the digital pins and the
serial console).  Every call into a collaborator is recorded as an `Event` in a
log; the simulated device on the bus is a function that answers each byte
exchange from the log so far and the byte being shifted out.

Bytes (`uint8_t`) are natural numbers below 256.  The argument of
`SPI.transfer` is converted to `uint8_t` at the call (the opcode expressions
are of type `int`), and the value it returns is a `uint8_t`; both are written
as an explicit `% 256`.
-/

namespace ADS1120

/-! ## Constants of `ADS1120.h` -/

def RESET : Nat := 0x06
def START : Nat := 0x08
def PDOWN : Nat := 0x02
def RREG : Nat := 0x20
def WREG : Nat := 0x40
def DUMMY : Nat := 0xFF

def CONFIG_REG0_ADDR : Nat := 0x00
def CONFIG_REG1_ADDR : Nat := 0x01
def CONFIG_REG2_ADDR : Nat := 0x02
def CONFIG_REG3_ADDR : Nat := 0x03

/-! ## Collaborators -/

inductive PinMode where
  | INPUT
  | OUTPUT
  deriving DecidableEq

inductive Level where
  | LOW
  | HIGH
  deriving DecidableEq

inductive BitOrder where
  | LSBFIRST
  | MSBFIRST
  deriving DecidableEq

inductive DataMode where
  | SPI_MODE0
  | SPI_MODE1
  | SPI_MODE2
  | SPI_MODE3
  deriving DecidableEq

structure SPISettings where
  clock : Nat
  bitOrder : BitOrder
  dataMode : DataMode
  deriving DecidableEq

/-- The bus settings object of `ADS1120.cpp` line 15. -/
def mySPISettings : SPISettings := ⟨4096000, BitOrder.MSBFIRST, DataMode.SPI_MODE1⟩

/-- One call into a collaborator. `spiTransfer out inp` is one full-duplex
exchange: `out` was shifted out and `inp` was received. -/
inductive Event where
  | pinMode (pin : Nat) (mode : PinMode)
  | digitalWrite (pin : Nat) (level : Level)
  | spiBegin
  | spiBeginTransaction (settings : SPISettings)
  | spiTransfer (out : Nat) (inp : Nat)
  | spiEndTransaction
  | delay (ms : Nat)
  | delayMicroseconds (us : Nat)
  | serialPrintln (text : List Char)
  deriving DecidableEq

/-- A simulated device: the byte it answers to an exchange, given everything
that happened before and the byte being shifted out. -/
abbrev Device := List Event → Nat → Nat

/-! ## Driver state -/

/-- The two bytes of the `analogData` union, `LSB` at the lower address. -/
structure AnalogData where
  LSB : Nat
  MSB : Nat
  deriving DecidableEq

/-- The `int16` member of the union on the little-endian target: the 16-bit
word whose low byte is `LSB` and whose high byte is `MSB`, read as two's
complement. -/
def AnalogData.int16 (a : AnalogData) : Int :=
  let u := a.LSB + 256 * a.MSB
  if u < 32768 then (u : Int) else (u : Int) - 65536

/-- The data members of `class ADS1120`. -/
structure Driver where
  cs_pin_ : Nat
  drdy_pin_ : Nat
  config_reg0_ : Nat
  config_reg1_ : Nat
  config_reg2_ : Nat
  config_reg3_ : Nat
  analogData : AnalogData
  deriving DecidableEq

/-- A freshly constructed driver: the default member initialisers of
`ADS1120.h`; the constructor leaves `analogData` as it finds it. -/
def Driver.fresh (a : AnalogData) : Driver :=
  { cs_pin_ := 10, drdy_pin_ := 14,
    config_reg0_ := 0x04, config_reg1_ := 0xD0,
    config_reg2_ := 0x40, config_reg3_ := 0x00,
    analogData := a }

/-- The driver together with the log of collaborator calls made so far. -/
structure Machine where
  drv : Driver
  log : List Event
  deriving DecidableEq

/-- Record one collaborator call. -/
def emit (e : Event) (m : Machine) : Machine :=
  { m with log := m.log ++ [e] }

/-- `SPI.transfer(out)`: one exchange with the device. -/
def SPI_transfer (dev : Device) (out : Nat) (m : Machine) : Nat × Machine :=
  let o := out % 256
  let r := dev m.log o % 256
  (r, emit (Event.spiTransfer o r) m)

/-! ## Member functions of `ADS1120.cpp` -/

/-- `ADS1120::beginTransaction` (lines 58-62). -/
def beginTransaction (m : Machine) : Machine :=
  let m := emit (Event.spiBeginTransaction mySPISettings) m
  let m := emit (Event.digitalWrite m.drv.cs_pin_ Level.LOW) m
  emit (Event.delayMicroseconds 1) m

/-- `ADS1120::endTransaction` (lines 64-68). -/
def endTransaction (m : Machine) : Machine :=
  let m := emit (Event.delayMicroseconds 1) m
  let m := emit (Event.digitalWrite m.drv.cs_pin_ Level.HIGH) m
  emit Event.spiEndTransaction m

/-- `ADS1120::sendCommand` (lines 70-74); the byte received is not used. -/
def sendCommand (dev : Device) (cmd : Nat) (m : Machine) : Machine :=
  let m := beginTransaction m
  let m := (SPI_transfer dev cmd m).2
  endTransaction m

/-- `ADS1120::writeRegister` (lines 76-81); `WREG|(addr<<2)` is computed as an
`int` and converted by `SPI.transfer`. -/
def writeRegister (dev : Device) (addr : Nat) (val : Nat) (m : Machine) : Machine :=
  let m := beginTransaction m
  let m := (SPI_transfer dev (WREG ||| (addr <<< 2)) m).2
  let m := (SPI_transfer dev val m).2
  endTransaction m

/-- `ADS1120::readRegister` (lines 83-92): the result is the byte received in
the second exchange. -/
def readRegister (dev : Device) (addr : Nat) (m : Machine) : Nat × Machine :=
  let m := beginTransaction m
  let m := (SPI_transfer dev (RREG ||| (addr <<< 2)) m).2
  let (val, m) := SPI_transfer dev DUMMY m
  let m := endTransaction m
  (val, m)

/-- `ADS1120::readADC` (lines 94-99): the first byte received is stored in
`analogData.uint8.MSB`, the second in `analogData.uint8.LSB`. -/
def readADC (dev : Device) (m : Machine) : Machine :=
  let m := beginTransaction m
  let (msb, m) := SPI_transfer dev DUMMY m
  let m := { m with drv := { m.drv with analogData := { m.drv.analogData with MSB := msb } } }
  let (lsb, m) := SPI_transfer dev DUMMY m
  let m := { m with drv := { m.drv with analogData := { m.drv.analogData with LSB := lsb } } }
  endTransaction m

/-! ### The diagnostic line -/

/-- One uppercase hexadecimal digit, as `%X` prints it. -/
def hexDigitUpper (d : Nat) : Char :=
  "0123456789ABCDEF".toList.getD d '0'

/-- The uppercase hexadecimal digits of `n`, most significant first, with no
padding (`fuel` bounds the number of digits). -/
def hexDigitsUpper : Nat → Nat → List Char
  | 0, _ => []
  | fuel + 1, n =>
    if n < 16 then [hexDigitUpper n]
    else hexDigitsUpper fuel (n / 16) ++ [hexDigitUpper (n % 16)]

/-- The conversion `%02X` of `sprintf`: uppercase hexadecimal, padded with
zeros on the left to a width of at least two. -/
def fmt02X (n : Nat) : List Char :=
  let ds := hexDigitsUpper (n + 1) n
  List.replicate (2 - ds.length) '0' ++ ds

/-- The characters `sprintf(message, "Config reg : %02X %02X %02X %02X", ...)`
produces, without the terminating NUL. -/
def sprintfConfig (r0 r1 r2 r3 : Nat) : List Char :=
  "Config reg : ".toList ++ fmt02X r0 ++ [' '] ++ fmt02X r1 ++ [' ']
    ++ fmt02X r2 ++ [' '] ++ fmt02X r3

/-- The size of `char message[24]`. -/
def messageSize : Nat := 24

/-- The text of a C string: the characters before the first NUL. -/
def cString (bytes : List Char) : List Char :=
  bytes.takeWhile (fun c => c != Char.ofNat 0)

/-- `ADS1120::begin` (lines 21-56).  `sprintf` writes the formatted characters
and a terminating NUL starting at `message`; `Serial.println(message)` prints
the C string found there.  Whether those bytes fit in `message` is not decided
here (see `messageSize`). -/
def begin (dev : Device) (cs_pin drdy_pin : Nat) (m : Machine) : Machine :=
  let m := { m with drv := { m.drv with cs_pin_ := cs_pin } }
  let m := { m with drv := { m.drv with drdy_pin_ := drdy_pin } }
  let m := emit (Event.pinMode m.drv.cs_pin_ PinMode.OUTPUT) m
  let m := emit (Event.pinMode m.drv.drdy_pin_ PinMode.INPUT) m
  let m := emit (Event.digitalWrite m.drv.cs_pin_ Level.HIGH) m
  let m := emit Event.spiBegin m
  let m := sendCommand dev RESET m
  let m := emit (Event.delay 100) m
  let m := writeRegister dev CONFIG_REG0_ADDR m.drv.config_reg0_ m
  let m := writeRegister dev CONFIG_REG1_ADDR m.drv.config_reg1_ m
  let m := writeRegister dev CONFIG_REG2_ADDR m.drv.config_reg2_ m
  let m := writeRegister dev CONFIG_REG3_ADDR m.drv.config_reg3_ m
  let (r0, m) := readRegister dev CONFIG_REG0_ADDR m
  let m := { m with drv := { m.drv with config_reg0_ := r0 } }
  let (r1, m) := readRegister dev CONFIG_REG1_ADDR m
  let m := { m with drv := { m.drv with config_reg1_ := r1 } }
  let (r2, m) := readRegister dev CONFIG_REG2_ADDR m
  let m := { m with drv := { m.drv with config_reg2_ := r2 } }
  let (r3, m) := readRegister dev CONFIG_REG3_ADDR m
  let m := { m with drv := { m.drv with config_reg3_ := r3 } }
  let message := sprintfConfig m.drv.config_reg0_ m.drv.config_reg1_
    m.drv.config_reg2_ m.drv.config_reg3_ ++ [Char.ofNat 0]
  let m := emit (Event.serialPrintln (cString message)) m
  emit (Event.delay 100) m

/-! ## Reading a log -/

/-- One bus transaction as seen on the wire: the pin that was driven low and
high around it, and its exchanges `(shifted out, received)` in order. -/
structure Transaction where
  csPin : Nat
  exchanges : List (Nat × Nat)
  deriving DecidableEq

/-- The bytes a transaction shifted out, in order. -/
def Transaction.shiftedOut (t : Transaction) : List Nat :=
  t.exchanges.map Prod.fst

/-- Where a log stands with respect to the transaction discipline. -/
inductive Phase where
  | idle
  | acquired
  | selected (pin : Nat) (xs : List (Nat × Nat))
  | released (pin : Nat) (xs : List (Nat × Nat))
  deriving DecidableEq

/-- One event against the transaction discipline.  A transaction is: acquire
the bus, drive one pin low, exchange bytes, drive the same pin high, release
the bus.  Acquiring while a transaction is open, releasing while none is open
or before chip-select is high again, exchanging a byte or driving a pin low
outside the selected window, and driving a pin high inside a transaction other
than the one closing edge are all refused (`none`).  The result carries the
transaction that the event completed, if any. -/
def step : Phase → Event → Option (Phase × List Transaction)
  | Phase.idle, Event.spiBeginTransaction _ => some (Phase.acquired, [])
  | Phase.idle, Event.spiEndTransaction => none
  | Phase.idle, Event.spiTransfer _ _ => none
  | Phase.idle, Event.digitalWrite _ Level.LOW => none
  | Phase.idle, _ => some (Phase.idle, [])
  | Phase.acquired, Event.digitalWrite p Level.LOW => some (Phase.selected p [], [])
  | Phase.acquired, Event.digitalWrite _ Level.HIGH => none
  | Phase.acquired, Event.spiBeginTransaction _ => none
  | Phase.acquired, Event.spiEndTransaction => none
  | Phase.acquired, Event.spiTransfer _ _ => none
  | Phase.acquired, _ => some (Phase.acquired, [])
  | Phase.selected p xs, Event.spiTransfer o i => some (Phase.selected p (xs ++ [(o, i)]), [])
  | Phase.selected p xs, Event.digitalWrite q Level.HIGH =>
    if q = p then some (Phase.released p xs, []) else none
  | Phase.selected _ _, Event.digitalWrite _ Level.LOW => none
  | Phase.selected _ _, Event.spiBeginTransaction _ => none
  | Phase.selected _ _, Event.spiEndTransaction => none
  | Phase.selected p xs, _ => some (Phase.selected p xs, [])
  | Phase.released p xs, Event.spiEndTransaction => some (Phase.idle, [⟨p, xs⟩])
  | Phase.released _ _, Event.spiBeginTransaction _ => none
  | Phase.released _ _, Event.spiTransfer _ _ => none
  | Phase.released _ _, Event.digitalWrite _ _ => none
  | Phase.released p xs, _ => some (Phase.released p xs, [])

/-- Run `step` along a log, collecting the completed transactions. -/
def scan : Phase → List Transaction → List Event → Option (Phase × List Transaction)
  | p, acc, [] => some (p, acc)
  | p, acc, e :: es =>
    match step p e with
    | none => none
    | some (q, done) => scan q (acc ++ done) es

/-- The transactions of a log, in order: defined when the log keeps the
transaction discipline from start to end and leaves no transaction open. -/
def transactions (tr : List Event) : Option (List Transaction) :=
  match scan Phase.idle [] tr with
  | some (Phase.idle, ts) => some ts
  | _ => none

/-- The acquisitions (`true`) and releases (`false`) of the bus in a log, in
order. -/
def brackets : List Event → List Bool
  | [] => []
  | Event.spiBeginTransaction _ :: es => true :: brackets es
  | Event.spiEndTransaction :: es => false :: brackets es
  | _ :: es => brackets es

/-- The bracket sequence of `n` transactions one after the other: each
acquisition directly followed by its release. -/
def paired : Nat → List Bool
  | 0 => []
  | n + 1 => true :: false :: paired n

/-- The lines printed on the serial console, in order. -/
def printed : List Event → List (List Char)
  | [] => []
  | Event.serialPrintln text :: es => text :: printed es
  | _ :: es => printed es

/-- The events an operation added to the log. -/
def emitted (op : Machine → Machine) (m : Machine) : List Event :=
  (op m).log.drop m.log.length

/-! ## Sequences of public calls -/

/-- A call of one of the public operations, with its arguments. -/
inductive Call where
  | begin (cs_pin drdy_pin : Nat)
  | sendCommand (cmd : Nat)
  | writeRegister (addr val : Nat)
  | readRegister (addr : Nat)
  | readADC
  deriving DecidableEq

/-- Perform one call; the value `readRegister` returns goes to the caller and
is dropped here. -/
def Call.exec (dev : Device) : Call → Machine → Machine
  | Call.begin cs_pin drdy_pin, m => ADS1120.begin dev cs_pin drdy_pin m
  | Call.sendCommand cmd, m => ADS1120.sendCommand dev cmd m
  | Call.writeRegister addr val, m => ADS1120.writeRegister dev addr val m
  | Call.readRegister addr, m => (ADS1120.readRegister dev addr m).2
  | Call.readADC, m => ADS1120.readADC dev m

/-- Perform a sequence of calls, first to last. -/
def run (dev : Device) : List Call → Machine → Machine
  | [], m => m
  | c :: cs, m => run dev cs (c.exec dev m)

/-- The number of transactions a call performs. -/
def Call.transactionCount : Call → Nat
  | Call.begin _ _ => 9
  | _ => 1

/-! ## Simulated devices -/

/-- The number of byte exchanges in a log. -/
def exchangeCount : List Event → Nat
  | [] => 0
  | Event.spiTransfer _ _ :: es => exchangeCount es + 1
  | _ :: es => exchangeCount es

/-- The device that answers the k-th exchange with the k-th byte of `script`
(and with 0 once the script is exhausted). -/
def scripted (script : List Nat) : Device :=
  fun log _ => script.getD (exchangeCount log) 0

/-- The device that answers every exchange with `b`. -/
def constant (b : Nat) : Device :=
  fun _ _ => b

/-- Every exchange of `evs`, taking place after the log `pre`, received the
byte that `dev` answers at that point. -/
def answeredBy (dev : Device) : List Event → List Event → Bool
  | _, [] => true
  | pre, Event.spiTransfer o i :: es =>
    decide (i = dev pre o % 256) && answeredBy dev (pre ++ [Event.spiTransfer o i]) es
  | pre, e :: es => answeredBy dev (pre ++ [e]) es

/-! ## Reference renderings -/

/-- A byte as exactly two uppercase hexadecimal digits. -/
def twoHexDigits (b : Nat) : List Char :=
  [hexDigitUpper (b / 16), hexDigitUpper (b % 16)]

/-- The diagnostic line for four bytes. -/
def configLine (r0 r1 r2 r3 : Nat) : List Char :=
  "Config reg : ".toList ++ twoHexDigits r0 ++ [' '] ++ twoHexDigits r1 ++ [' ']
    ++ twoHexDigits r2 ++ [' '] ++ twoHexDigits r3

/-- The events of one transaction on chip-select pin `cs` around `body`. -/
def framed (cs : Nat) (body : List Event) : List Event :=
  [Event.spiBeginTransaction mySPISettings, Event.digitalWrite cs Level.LOW,
    Event.delayMicroseconds 1] ++ body ++
  [Event.delayMicroseconds 1, Event.digitalWrite cs Level.HIGH, Event.spiEndTransaction]

/-- The events `begin` adds to the log, given the configuration bytes it
writes and the seventeen bytes the device answers. -/
def beginEvents (cs drdy c0 c1 c2 c3 : Nat) (a w0 v0 w1 v1 w2 v2 w3 v3 : Nat)
    (x0 r0 x1 r1 x2 r2 x3 r3 : Nat) : List Event :=
  [Event.pinMode cs PinMode.OUTPUT, Event.pinMode drdy PinMode.INPUT,
    Event.digitalWrite cs Level.HIGH, Event.spiBegin]
  ++ framed cs [Event.spiTransfer 0x06 a]
  ++ [Event.delay 100]
  ++ framed cs [Event.spiTransfer 0x40 w0, Event.spiTransfer (c0 % 256) v0]
  ++ framed cs [Event.spiTransfer 0x44 w1, Event.spiTransfer (c1 % 256) v1]
  ++ framed cs [Event.spiTransfer 0x48 w2, Event.spiTransfer (c2 % 256) v2]
  ++ framed cs [Event.spiTransfer 0x4C w3, Event.spiTransfer (c3 % 256) v3]
  ++ framed cs [Event.spiTransfer 0x20 x0, Event.spiTransfer 0xFF r0]
  ++ framed cs [Event.spiTransfer 0x24 x1, Event.spiTransfer 0xFF r1]
  ++ framed cs [Event.spiTransfer 0x28 x2, Event.spiTransfer 0xFF r2]
  ++ framed cs [Event.spiTransfer 0x2C x3, Event.spiTransfer 0xFF r3]
  ++ [Event.serialPrintln (cString (sprintfConfig r0 r1 r2 r3 ++ [Char.ofNat 0])),
      Event.delay 100]

/-! ## What each operation adds to the log -/

theorem answeredBy_append (dev : Device) (a b pre : List Event) :
    answeredBy dev pre (a ++ b) = (answeredBy dev pre a && answeredBy dev (pre ++ a) b) := by
  induction a generalizing pre with
  | nil => simp [answeredBy]
  | cons e es ih =>
    cases e <;> simp [answeredBy, ih, Bool.and_assoc]

theorem sendCommand_eq (dev : Device) (cmd : Nat) (d : Driver) (l : List Event) :
    ∃ r, r < 256 ∧ answeredBy dev l (framed d.cs_pin_ [Event.spiTransfer (cmd % 256) r]) = true ∧
      sendCommand dev cmd ⟨d, l⟩
        = ⟨d, l ++ framed d.cs_pin_ [Event.spiTransfer (cmd % 256) r]⟩ := by
  refine ⟨?r, ?h, ?c, ?e⟩
  case e =>
    simp only [sendCommand, beginTransaction, endTransaction, SPI_transfer, emit, framed,
      List.append_assoc, List.cons_append, List.nil_append]
    exact rfl
  case h => exact Nat.mod_lt _ (Nat.succ_pos 255)
  case c => simp [answeredBy, framed]

theorem writeRegister_eq (dev : Device) (addr val : Nat) (d : Driver) (l : List Event) :
    ∃ r1 r2, r1 < 256 ∧ r2 < 256 ∧
      answeredBy dev l (framed d.cs_pin_
        [Event.spiTransfer ((WREG ||| (addr <<< 2)) % 256) r1,
          Event.spiTransfer (val % 256) r2]) = true ∧
      writeRegister dev addr val ⟨d, l⟩
        = ⟨d, l ++ framed d.cs_pin_ [Event.spiTransfer ((WREG ||| (addr <<< 2)) % 256) r1,
            Event.spiTransfer (val % 256) r2]⟩ := by
  refine ⟨?r1, ?r2, ?h1, ?h2, ?c, ?e⟩
  case e =>
    simp only [writeRegister, beginTransaction, endTransaction, SPI_transfer, emit, framed,
      List.append_assoc, List.cons_append, List.nil_append]
    exact rfl
  case h1 => exact Nat.mod_lt _ (Nat.succ_pos 255)
  case h2 => exact Nat.mod_lt _ (Nat.succ_pos 255)
  case c => simp [answeredBy, framed]

theorem readRegister_eq (dev : Device) (addr : Nat) (d : Driver) (l : List Event) :
    ∃ r1 r2, r1 < 256 ∧ r2 < 256 ∧
      answeredBy dev l (framed d.cs_pin_
        [Event.spiTransfer ((RREG ||| (addr <<< 2)) % 256) r1, Event.spiTransfer 0xFF r2]) = true ∧
      readRegister dev addr ⟨d, l⟩
        = (r2, ⟨d, l ++ framed d.cs_pin_ [Event.spiTransfer ((RREG ||| (addr <<< 2)) % 256) r1,
            Event.spiTransfer 0xFF r2]⟩) := by
  refine ⟨?r1, ?r2, ?h1, ?h2, ?c, ?e⟩
  case e =>
    simp only [readRegister, beginTransaction, endTransaction, SPI_transfer, emit, framed,
      List.append_assoc, List.cons_append, List.nil_append, DUMMY]
    exact rfl
  case h1 => exact Nat.mod_lt _ (Nat.succ_pos 255)
  case h2 => exact Nat.mod_lt _ (Nat.succ_pos 255)
  case c => simp [answeredBy, framed]

theorem readADC_eq (dev : Device) (d : Driver) (l : List Event) :
    ∃ mb lb, mb < 256 ∧ lb < 256 ∧
      answeredBy dev l (framed d.cs_pin_
        [Event.spiTransfer 0xFF mb, Event.spiTransfer 0xFF lb]) = true ∧
      readADC dev ⟨d, l⟩
        = ⟨{ d with analogData := ⟨lb, mb⟩ },
            l ++ framed d.cs_pin_ [Event.spiTransfer 0xFF mb, Event.spiTransfer 0xFF lb]⟩ := by
  refine ⟨?r1, ?r2, ?h1, ?h2, ?c, ?e⟩
  case e =>
    simp only [readADC, beginTransaction, endTransaction, SPI_transfer, emit, framed,
      List.append_assoc, List.cons_append, List.nil_append, DUMMY]
    exact rfl
  case h1 => exact Nat.mod_lt _ (Nat.succ_pos 255)
  case h2 => exact Nat.mod_lt _ (Nat.succ_pos 255)
  case c => simp [answeredBy, framed]

theorem begin_eq (dev : Device) (cs drdy : Nat) (d : Driver) (l : List Event) :
    ∃ a w0 v0 w1 v1 w2 v2 w3 v3 x0 r0 x1 r1 x2 r2 x3 r3,
      r0 < 256 ∧ r1 < 256 ∧ r2 < 256 ∧ r3 < 256 ∧
      answeredBy dev l (beginEvents cs drdy d.config_reg0_ d.config_reg1_ d.config_reg2_
        d.config_reg3_ a w0 v0 w1 v1 w2 v2 w3 v3 x0 r0 x1 r1 x2 r2 x3 r3) = true ∧
      begin dev cs drdy ⟨d, l⟩
        = ⟨⟨cs, drdy, r0, r1, r2, r3, d.analogData⟩,
            l ++ beginEvents cs drdy d.config_reg0_ d.config_reg1_ d.config_reg2_
              d.config_reg3_ a w0 v0 w1 v1 w2 v2 w3 v3 x0 r0 x1 r1 x2 r2 x3 r3⟩ := by
  unfold begin
  lift_lets
  intro s1 m2 s3 m4 m5 m6 m7 m8
  have h8 : m8 = ⟨(⟨cs, drdy, d.config_reg0_, d.config_reg1_, d.config_reg2_, d.config_reg3_, d.analogData⟩ : Driver), l ++ [Event.pinMode cs PinMode.OUTPUT, Event.pinMode drdy PinMode.INPUT,
      Event.digitalWrite cs Level.HIGH, Event.spiBegin]⟩ := by
    simp only [m8, m7, m6, m5, m4, s3, m2, s1, emit, List.append_assoc, List.cons_append,
      List.nil_append]
  clear_value m8
  subst h8
  clear m7 m6 m5 m4 s3 m2 s1
  generalize hL0 : l ++ [Event.pinMode cs PinMode.OUTPUT, Event.pinMode drdy PinMode.INPUT,
      Event.digitalWrite cs Level.HIGH, Event.spiBegin] = L0
  intro m9
  obtain ⟨a, -, c0, ha⟩ := sendCommand_eq dev RESET (⟨cs, drdy, d.config_reg0_, d.config_reg1_, d.config_reg2_, d.config_reg3_, d.analogData⟩ : Driver) L0
  have h9 : m9 = _ := ha
  clear_value m9
  subst h9
  clear ha
  intro m10
  have h10 : m10 = ⟨(⟨cs, drdy, d.config_reg0_, d.config_reg1_, d.config_reg2_, d.config_reg3_, d.analogData⟩ : Driver), L0 ++ framed cs [Event.spiTransfer (RESET % 256) a]
      ++ [Event.delay 100]⟩ := rfl
  clear_value m10
  subst h10
  generalize hL1 : L0 ++ framed cs [Event.spiTransfer (RESET % 256) a]
      ++ [Event.delay 100] = L1
  intro m
  obtain ⟨w0, v0, -, -, c1, hw⟩ := writeRegister_eq dev CONFIG_REG0_ADDR d.config_reg0_ (⟨cs, drdy, d.config_reg0_, d.config_reg1_, d.config_reg2_, d.config_reg3_, d.analogData⟩ : Driver) L1
  have hm : m = _ := hw
  clear_value m
  subst hm
  clear hw
  generalize hL2 : L1 ++ framed cs [Event.spiTransfer ((WREG ||| (CONFIG_REG0_ADDR <<< 2)) % 256) w0,
      Event.spiTransfer (d.config_reg0_ % 256) v0] = L2
  intro m
  obtain ⟨w1, v1, -, -, c2, hw⟩ := writeRegister_eq dev CONFIG_REG1_ADDR d.config_reg1_ (⟨cs, drdy, d.config_reg0_, d.config_reg1_, d.config_reg2_, d.config_reg3_, d.analogData⟩ : Driver) L2
  have hm : m = _ := hw
  clear_value m
  subst hm
  clear hw
  generalize hL3 : L2 ++ framed cs [Event.spiTransfer ((WREG ||| (CONFIG_REG1_ADDR <<< 2)) % 256) w1,
      Event.spiTransfer (d.config_reg1_ % 256) v1] = L3
  intro m
  obtain ⟨w2, v2, -, -, c3, hw⟩ := writeRegister_eq dev CONFIG_REG2_ADDR d.config_reg2_ (⟨cs, drdy, d.config_reg0_, d.config_reg1_, d.config_reg2_, d.config_reg3_, d.analogData⟩ : Driver) L3
  have hm : m = _ := hw
  clear_value m
  subst hm
  clear hw
  generalize hL4 : L3 ++ framed cs [Event.spiTransfer ((WREG ||| (CONFIG_REG2_ADDR <<< 2)) % 256) w2,
      Event.spiTransfer (d.config_reg2_ % 256) v2] = L4
  intro m
  obtain ⟨w3, v3, -, -, c4, hw⟩ := writeRegister_eq dev CONFIG_REG3_ADDR d.config_reg3_ (⟨cs, drdy, d.config_reg0_, d.config_reg1_, d.config_reg2_, d.config_reg3_, d.analogData⟩ : Driver) L4
  have hm : m = _ := hw
  clear_value m
  subst hm
  clear hw
  generalize hL5 : L4 ++ framed cs [Event.spiTransfer ((WREG ||| (CONFIG_REG3_ADDR <<< 2)) % 256) w3,
      Event.spiTransfer (d.config_reg3_ % 256) v3] = L5
  obtain ⟨x0, r0, -, hr0, c5, hx⟩ := readRegister_eq dev CONFIG_REG0_ADDR (⟨cs, drdy, d.config_reg0_, d.config_reg1_, d.config_reg2_, d.config_reg3_, d.analogData⟩ : Driver) L5
  rw [hx]
  clear hx
  simp only []
  generalize hL6 : L5 ++ framed cs [Event.spiTransfer ((RREG ||| (CONFIG_REG0_ADDR <<< 2)) % 256) x0,
      Event.spiTransfer 0xFF r0] = L6
  obtain ⟨x1, r1, -, hr1, c6, hx⟩ := readRegister_eq dev CONFIG_REG1_ADDR (⟨cs, drdy, r0, d.config_reg1_, d.config_reg2_, d.config_reg3_, d.analogData⟩ : Driver) L6
  rw [hx]
  clear hx
  simp only []
  generalize hL7 : L6 ++ framed cs [Event.spiTransfer ((RREG ||| (CONFIG_REG1_ADDR <<< 2)) % 256) x1,
      Event.spiTransfer 0xFF r1] = L7
  obtain ⟨x2, r2, -, hr2, c7, hx⟩ := readRegister_eq dev CONFIG_REG2_ADDR (⟨cs, drdy, r0, r1, d.config_reg2_, d.config_reg3_, d.analogData⟩ : Driver) L7
  rw [hx]
  clear hx
  simp only []
  generalize hL8 : L7 ++ framed cs [Event.spiTransfer ((RREG ||| (CONFIG_REG2_ADDR <<< 2)) % 256) x2,
      Event.spiTransfer 0xFF r2] = L8
  obtain ⟨x3, r3, -, hr3, c8, hx⟩ := readRegister_eq dev CONFIG_REG3_ADDR (⟨cs, drdy, r0, r1, r2, d.config_reg3_, d.analogData⟩ : Driver) L8
  rw [hx]
  clear hx
  simp only []
  generalize hL9 : L8 ++ framed cs [Event.spiTransfer ((RREG ||| (CONFIG_REG3_ADDR <<< 2)) % 256) x3,
      Event.spiTransfer 0xFF r3] = L9
  refine ⟨a, w0, v0, w1, v1, w2, v2, w3, v3, x0, r0, x1, r1, x2, r2, x3, r3,
    hr0, hr1, hr2, hr3, ?_, ?_⟩
  all_goals subst hL9 hL8 hL7 hL6 hL5 hL4 hL3 hL2 hL1 hL0
  all_goals have e : RESET % 256 = 0x06 := by decide
  all_goals have ew0 : (WREG ||| (CONFIG_REG0_ADDR <<< 2)) % 256 = 0x40 := by decide
  all_goals have ew1 : (WREG ||| (CONFIG_REG1_ADDR <<< 2)) % 256 = 0x44 := by decide
  all_goals have ew2 : (WREG ||| (CONFIG_REG2_ADDR <<< 2)) % 256 = 0x48 := by decide
  all_goals have ew3 : (WREG ||| (CONFIG_REG3_ADDR <<< 2)) % 256 = 0x4C := by decide
  all_goals have er0 : (RREG ||| (CONFIG_REG0_ADDR <<< 2)) % 256 = 0x20 := by decide
  all_goals have er1 : (RREG ||| (CONFIG_REG1_ADDR <<< 2)) % 256 = 0x24 := by decide
  all_goals have er2 : (RREG ||| (CONFIG_REG2_ADDR <<< 2)) % 256 = 0x28 := by decide
  all_goals have er3 : (RREG ||| (CONFIG_REG3_ADDR <<< 2)) % 256 = 0x2C := by decide
  · simp only [e, ew0, ew1, ew2, ew3, er0, er1, er2, er3, List.append_assoc] at c0 c1 c2 c3 c4 c5 c6 c7 c8
    simp only [beginEvents, answeredBy_append, List.append_assoc, c0, c1, c2, c3, c4, c5, c6, c7, c8]
    simp [answeredBy]
  · simp only [emit, beginEvents, e, ew0, ew1, ew2, ew3, er0, er1, er2, er3, List.append_assoc,
      List.cons_append, List.nil_append]

/-! ## Reading the logs of the operations -/

theorem scan_append (p : Phase) (acc : List Transaction) (l1 l2 : List Event) :
    scan p acc (l1 ++ l2) = (scan p acc l1).bind (fun r => scan r.1 r.2 l2) := by
  induction l1 generalizing p acc with
  | nil => simp [scan]
  | cons e es ih =>
    simp only [List.cons_append, scan]
    cases step p e with
    | none => simp
    | some r => simp [ih]

theorem emitted_of_log (op : Machine → Machine) (m : Machine) (evs : List Event)
    (h : (op m).log = m.log ++ evs) : emitted op m = evs := by
  simp [emitted, h]

theorem scan_framed_one (acc : List Transaction) (cs o r : Nat) :
    scan Phase.idle acc (framed cs [Event.spiTransfer o r])
      = some (Phase.idle, acc ++ [⟨cs, [(o, r)]⟩]) := by
  simp [framed, scan, step]

theorem scan_framed_two (acc : List Transaction) (cs o1 r1 o2 r2 : Nat) :
    scan Phase.idle acc (framed cs [Event.spiTransfer o1 r1, Event.spiTransfer o2 r2])
      = some (Phase.idle, acc ++ [⟨cs, [(o1, r1), (o2, r2)]⟩]) := by
  simp [framed, scan, step]

theorem scan_beginEvents (acc : List Transaction) (cs drdy c0 c1 c2 c3 : Nat)
    (a w0 v0 w1 v1 w2 v2 w3 v3 x0 r0 x1 r1 x2 r2 x3 r3 : Nat) :
    scan Phase.idle acc
        (beginEvents cs drdy c0 c1 c2 c3 a w0 v0 w1 v1 w2 v2 w3 v3 x0 r0 x1 r1 x2 r2 x3 r3)
      = some (Phase.idle, acc ++
          [⟨cs, [(0x06, a)]⟩,
           ⟨cs, [(0x40, w0), (c0 % 256, v0)]⟩, ⟨cs, [(0x44, w1), (c1 % 256, v1)]⟩,
           ⟨cs, [(0x48, w2), (c2 % 256, v2)]⟩, ⟨cs, [(0x4C, w3), (c3 % 256, v3)]⟩,
           ⟨cs, [(0x20, x0), (0xFF, r0)]⟩, ⟨cs, [(0x24, x1), (0xFF, r1)]⟩,
           ⟨cs, [(0x28, x2), (0xFF, r2)]⟩, ⟨cs, [(0x2C, x3), (0xFF, r3)]⟩]) := by
  simp [beginEvents, framed, scan, step]

theorem transactions_of_scan (tr : List Event) (ts : List Transaction)
    (h : scan Phase.idle [] tr = some (Phase.idle, ts)) : transactions tr = some ts := by
  simp [transactions, h]

/-! ## Register protocol -/

/-- C1: for every register address `a` in 0..3 and every byte `v`,
`writeRegister(a, v)` performs one transaction that shifts out exactly the two
bytes `0x40 | (a << 2)` and `v`, and `readRegister(a)` one transaction that
shifts out exactly `0x20 | (a << 2)` and the dummy byte `0xFF`; the opcodes are
the 8-bit values handed to the bus. -/
theorem register_opcodes_shifted_out (dev : Device) (m : Machine) (a v : Nat)
    (ha : a ≤ 3) (hv : v < 256) :
    (transactions (emitted (writeRegister dev a v) m)).map
        (List.map Transaction.shiftedOut) = some [[0x40 ||| (a <<< 2), v]] ∧
    (transactions (emitted (fun m => (readRegister dev a m).2) m)).map
        (List.map Transaction.shiftedOut) = some [[0x20 ||| (a <<< 2), 0xFF]] := by
  obtain ⟨d, l⟩ := m
  have hw : (WREG ||| (a <<< 2)) % 256 = 0x40 ||| (a <<< 2) := by
    interval_cases a <;> decide
  have hr : (RREG ||| (a <<< 2)) % 256 = 0x20 ||| (a <<< 2) := by
    interval_cases a <;> decide
  constructor
  · obtain ⟨r1, r2, -, -, -, h⟩ := writeRegister_eq dev a v d l
    rw [emitted_of_log _ _ _ (congrArg Machine.log h),
      transactions_of_scan _ _ (scan_framed_two [] _ _ _ _ _)]
    simp [Transaction.shiftedOut, hw, Nat.mod_eq_of_lt hv]
  · obtain ⟨r1, r2, -, -, -, h⟩ := readRegister_eq dev a d l
    rw [emitted_of_log (fun m => (readRegister dev a m).2) _ _
        (congrArg (fun p => p.2.log) h),
      transactions_of_scan _ _ (scan_framed_two [] _ _ _ _ _)]
    simp [Transaction.shiftedOut, hr]

theorem register_opcodes_shifted_out_witness :
    (2 ≤ 3 ∧ 0xD0 < 256) ∧
    ((transactions (emitted (writeRegister (constant 0) 2 0xD0)
        ⟨Driver.fresh ⟨0, 0⟩, []⟩)).map
        (List.map Transaction.shiftedOut) = some [[0x40 ||| (2 <<< 2), 0xD0]] ∧
    (transactions (emitted (fun m => (readRegister (constant 0) 2 m).2)
        ⟨Driver.fresh ⟨0, 0⟩, []⟩)).map
        (List.map Transaction.shiftedOut) = some [[0x20 ||| (2 <<< 2), 0xFF]]) :=
  ⟨⟨by decide, by decide⟩,
    register_opcodes_shifted_out (constant 0) ⟨Driver.fresh ⟨0, 0⟩, []⟩ 2 0xD0
      (by decide) (by decide)⟩

/-- C2: for every simulated device and every starting driver state, the
exchanges logged by `begin` carry the bytes the device answered, the last four
of its nine transactions are the reads of registers 0, 1, 2, 3, and each shadow
field holds, after `begin`, the byte received in the dummy (second) exchange of
the read of its register, whatever the shadow held and wrote before. -/
theorem begin_shadow_is_readback (dev : Device) (cs_pin drdy_pin : Nat) (m : Machine) :
    answeredBy dev m.log (emitted (begin dev cs_pin drdy_pin) m) = true ∧
    ∃ x0 x1 x2 x3,
      (transactions (emitted (begin dev cs_pin drdy_pin) m)).map (List.drop 5) = some
        [⟨cs_pin, [(0x20 ||| (0 <<< 2), x0), (0xFF, (begin dev cs_pin drdy_pin m).drv.config_reg0_)]⟩,
         ⟨cs_pin, [(0x20 ||| (1 <<< 2), x1), (0xFF, (begin dev cs_pin drdy_pin m).drv.config_reg1_)]⟩,
         ⟨cs_pin, [(0x20 ||| (2 <<< 2), x2), (0xFF, (begin dev cs_pin drdy_pin m).drv.config_reg2_)]⟩,
         ⟨cs_pin, [(0x20 ||| (3 <<< 2), x3), (0xFF, (begin dev cs_pin drdy_pin m).drv.config_reg3_)]⟩] := by
  obtain ⟨d, l⟩ := m
  obtain ⟨a, w0, v0, w1, v1, w2, v2, w3, v3, x0, r0, x1, r1, x2, r2, x3, r3, -, -, -, -, hc, h⟩ :=
    begin_eq dev cs_pin drdy_pin d l
  rw [emitted_of_log _ _ _ (congrArg Machine.log h)]
  refine ⟨hc, x0, x1, x2, x3, ?_⟩
  rw [transactions_of_scan _ _ (scan_beginEvents [] _ _ _ _ _ _ _ _ _ _ _ _ _ _ _ _ _ _ _ _ _ _ _), h]
  simp

/-! ## Conversion results -/

/-- C3: for every pair of bytes `(mb, lb)` received in the first and second
exchange of `readADC`, and whatever `analogData` held before, `analogData.int16`
is afterwards the signed 16-bit two's-complement value of `256 * mb + lb`. -/
theorem readADC_int16 (dev : Device) (m : Machine) (pin mb lb : Nat)
    (h : transactions (emitted (readADC dev) m) = some [⟨pin, [(DUMMY, mb), (DUMMY, lb)]⟩]) :
    (readADC dev m).drv.analogData.int16 = Int.bmod (256 * mb + lb) (2 ^ 16) := by
  obtain ⟨d, l⟩ := m
  obtain ⟨mb1, lb1, hm, hl, -, e⟩ := readADC_eq dev d l
  rw [emitted_of_log _ _ _ (congrArg Machine.log e),
    transactions_of_scan _ _ (scan_framed_two [] _ _ _ _ _)] at h
  simp only [Option.some.injEq, List.cons.injEq, Transaction.mk.injEq, Prod.mk.injEq,
    and_true, true_and] at h
  obtain ⟨-, ⟨-, rfl⟩, -, rfl⟩ := h
  rw [e]
  simp only [AnalogData.int16, Int.bmod]
  split <;> split <;> omega

theorem readADC_int16_witness :
    (transactions (emitted (readADC (scripted [0x12, 0x34])) ⟨Driver.fresh ⟨0, 0⟩, []⟩)
        = some [⟨10, [(DUMMY, 0x12), (DUMMY, 0x34)]⟩] ∧
      (readADC (scripted [0x12, 0x34]) ⟨Driver.fresh ⟨0, 0⟩, []⟩).drv.analogData.int16
        = 0x1234) ∧
    (transactions (emitted (readADC (scripted [0xFF, 0xFF])) ⟨Driver.fresh ⟨0x34, 0x12⟩, []⟩)
        = some [⟨10, [(DUMMY, 0xFF), (DUMMY, 0xFF)]⟩] ∧
      (readADC (scripted [0xFF, 0xFF]) ⟨Driver.fresh ⟨0x34, 0x12⟩, []⟩).drv.analogData.int16
        = -1) :=
  ⟨⟨by decide, (readADC_int16 (scripted [0x12, 0x34]) ⟨Driver.fresh ⟨0, 0⟩, []⟩ 10 0x12 0x34
      (by decide)).trans (by decide)⟩,
    ⟨by decide, (readADC_int16 (scripted [0xFF, 0xFF]) ⟨Driver.fresh ⟨0x34, 0x12⟩, []⟩ 10 0xFF 0xFF
      (by decide)).trans (by decide)⟩⟩

/-! ## Transaction discipline -/

theorem brackets_append (l1 l2 : List Event) :
    brackets (l1 ++ l2) = brackets l1 ++ brackets l2 := by
  induction l1 with
  | nil => simp [brackets]
  | cons e es ih => cases e <;> simp [brackets, ih]

theorem paired_add (a b : Nat) : paired (a + b) = paired a ++ paired b := by
  induction a with
  | zero => simp [paired]
  | succ n ih => simp [Nat.succ_add, paired, ih]

theorem exec_log (dev : Device) (c : Call) (m : Machine) :
    ∃ evs new, (c.exec dev m).log = m.log ++ evs ∧ new.length = c.transactionCount ∧
      brackets evs = paired c.transactionCount ∧
      ∀ acc, scan Phase.idle acc evs = some (Phase.idle, acc ++ new) := by
  obtain ⟨d, l⟩ := m
  cases c with
  | begin cs_pin drdy_pin =>
    obtain ⟨a, w0, v0, w1, v1, w2, v2, w3, v3, x0, r0, x1, r1, x2, r2, x3, r3, -, -, -, -, -, h⟩ :=
      begin_eq dev cs_pin drdy_pin d l
    refine ⟨_, _, congrArg Machine.log h, ?_, ?_, fun acc => scan_beginEvents acc _ _ _ _ _ _ _ _ _ _
      _ _ _ _ _ _ _ _ _ _ _ _ _⟩
    · rfl
    · simp [beginEvents, framed, brackets, paired, Call.transactionCount]
  | sendCommand cmd =>
    obtain ⟨r, -, -, h⟩ := sendCommand_eq dev cmd d l
    refine ⟨_, _, congrArg Machine.log h, ?_, ?_, fun acc => scan_framed_one acc _ _ _⟩
    · rfl
    · simp [framed, brackets, paired, Call.transactionCount]
  | writeRegister addr val =>
    obtain ⟨r1, r2, -, -, -, h⟩ := writeRegister_eq dev addr val d l
    refine ⟨_, _, congrArg Machine.log h, ?_, ?_, fun acc => scan_framed_two acc _ _ _ _ _⟩
    · rfl
    · simp [framed, brackets, paired, Call.transactionCount]
  | readRegister addr =>
    obtain ⟨r1, r2, -, -, -, h⟩ := readRegister_eq dev addr d l
    refine ⟨_, _, congrArg (fun p => p.2.log) h, ?_, ?_,
      fun acc => scan_framed_two acc _ _ _ _ _⟩
    · rfl
    · simp [framed, brackets, paired, Call.transactionCount]
  | readADC =>
    obtain ⟨mb, lb, -, -, -, h⟩ := readADC_eq dev d l
    refine ⟨_, _, congrArg Machine.log h, ?_, ?_, fun acc => scan_framed_two acc _ _ _ _ _⟩
    · rfl
    · simp [framed, brackets, paired, Call.transactionCount]

theorem run_log (dev : Device) (calls : List Call) (m : Machine) (ts0 : List Transaction)
    (h : scan Phase.idle [] m.log = some (Phase.idle, ts0))
    (hb : brackets m.log = paired ts0.length) :
    ∃ ts, scan Phase.idle [] (run dev calls m).log = some (Phase.idle, ts) ∧
      ts.length = ts0.length + (calls.map Call.transactionCount).sum ∧
      brackets (run dev calls m).log = paired ts.length := by
  induction calls generalizing m ts0 with
  | nil => exact ⟨ts0, h, by simp, hb⟩
  | cons c cs ih =>
    obtain ⟨evs, new, hlog, hlen, hbr, hscan⟩ := exec_log dev c m
    have h1 : scan Phase.idle [] (c.exec dev m).log = some (Phase.idle, ts0 ++ new) := by
      rw [hlog, scan_append, h]
      exact hscan ts0
    have hb1 : brackets (c.exec dev m).log = paired (ts0 ++ new).length := by
      rw [hlog, brackets_append, hb, hbr, List.length_append, hlen, paired_add]
    obtain ⟨ts, hts, hl, hbt⟩ := ih (c.exec dev m) (ts0 ++ new) h1 hb1
    refine ⟨ts, hts, ?_, hbt⟩
    rw [hl, List.length_append, hlen, List.map_cons, List.sum_cons, Nat.add_assoc]

/-- C4: for every finite sequence of calls to `begin`, `sendCommand`,
`writeRegister`, `readRegister` and `readADC`, with any arguments, any device
and any starting driver state, the resulting log keeps the transaction
discipline: it splits into complete transactions (bus acquired, chip-select
driven low once, byte exchanges, the same pin driven high once, bus released),
no acquisition happens while a transaction is open, no exchange happens outside
one, acquisitions and releases alternate strictly from the first acquisition
to the last release, and each call contributes its own transactions (nine for
`begin`, one for each other call). -/
theorem transactions_well_bracketed (dev : Device) (calls : List Call) (s : Driver) :
    ∃ ts, transactions (run dev calls ⟨s, []⟩).log = some ts ∧
      ts.length = (calls.map Call.transactionCount).sum ∧
      brackets (run dev calls ⟨s, []⟩).log = paired ts.length := by
  obtain ⟨ts, h, hl, hb⟩ := run_log dev calls ⟨s, []⟩ [] rfl rfl
  exact ⟨ts, transactions_of_scan _ _ h, by simpa using hl, hb⟩

/-! ## Initialisation -/

/-- C5: `begin` on a freshly constructed driver (shadow 0x04, 0xD0, 0x40, 0x00),
for any device, any pins and any earlier log, performs exactly nine
transactions, each with chip-select `cs_pin` driven low and high once, in this
order: one shifting out the single byte 0x06; the writes of 0x04, 0xD0, 0x40,
0x00 to registers 0, 1, 2, 3; the reads of registers 0, 1, 2, 3, each a read
opcode followed by one dummy byte. -/
theorem begin_fresh_nine_transactions (dev : Device) (cs_pin drdy_pin : Nat)
    (a : AnalogData) (l : List Event) :
    (transactions (emitted (begin dev cs_pin drdy_pin) ⟨Driver.fresh a, l⟩)).map
        (List.map (fun t => (t.csPin, t.shiftedOut))) = some
      [(cs_pin, [0x06]),
       (cs_pin, [0x40 ||| (0 <<< 2), 0x04]), (cs_pin, [0x40 ||| (1 <<< 2), 0xD0]),
       (cs_pin, [0x40 ||| (2 <<< 2), 0x40]), (cs_pin, [0x40 ||| (3 <<< 2), 0x00]),
       (cs_pin, [0x20 ||| (0 <<< 2), 0xFF]), (cs_pin, [0x20 ||| (1 <<< 2), 0xFF]),
       (cs_pin, [0x20 ||| (2 <<< 2), 0xFF]), (cs_pin, [0x20 ||| (3 <<< 2), 0xFF])] := by
  obtain ⟨a, w0, v0, w1, v1, w2, v2, w3, v3, x0, r0, x1, r1, x2, r2, x3, r3, -, -, -, -, -, h⟩ :=
    begin_eq dev cs_pin drdy_pin (Driver.fresh a) l
  rw [emitted_of_log _ _ _ (congrArg Machine.log h),
    transactions_of_scan _ _ (scan_beginEvents [] _ _ _ _ _ _ _ _ _ _ _ _ _ _ _ _ _ _ _ _ _ _ _)]
  simp [Transaction.shiftedOut, Driver.fresh]

/-- C6, counterexample: on a driver whose earlier `begin` read back 0xFF from
every register, a second `begin` writes 0xFF, not 0x04, 0xD0, 0x40, 0x00, to
registers 0, 1, 2, 3. -/
theorem begin_again_writes_readback :
    (transactions (emitted (begin (constant 0xFF) 10 14)
        (run (constant 0xFF) [Call.begin 10 14] ⟨Driver.fresh ⟨0, 0⟩, []⟩))).map
        (fun ts => ((ts.drop 1).take 4).map Transaction.shiftedOut)
      = some [[0x40, 0xFF], [0x44, 0xFF], [0x48, 0xFF], [0x4C, 0xFF]] ∧
    (transactions (emitted (begin (constant 0xFF) 10 14)
        (run (constant 0xFF) [Call.begin 10 14] ⟨Driver.fresh ⟨0, 0⟩, []⟩))).map
        (fun ts => ((ts.drop 1).take 4).map Transaction.shiftedOut)
      ≠ some [[0x40, 0x04], [0x44, 0xD0], [0x48, 0x40], [0x4C, 0x00]] := by
  decide

/-- C6, amended: for every driver state whose shadow fields are bytes and every
device, `begin` writes the values the shadow holds at the time of the call to
registers 0, 1, 2, 3 (its second to fifth transactions); on a freshly
constructed driver these are 0x04, 0xD0, 0x40, 0x00. -/
theorem begin_writes_current_shadow (dev : Device) (cs_pin drdy_pin : Nat) (m : Machine)
    (h0 : m.drv.config_reg0_ < 256) (h1 : m.drv.config_reg1_ < 256)
    (h2 : m.drv.config_reg2_ < 256) (h3 : m.drv.config_reg3_ < 256) :
    (transactions (emitted (begin dev cs_pin drdy_pin) m)).map
        (fun ts => ((ts.drop 1).take 4).map Transaction.shiftedOut)
      = some [[0x40 ||| (0 <<< 2), m.drv.config_reg0_], [0x40 ||| (1 <<< 2), m.drv.config_reg1_],
          [0x40 ||| (2 <<< 2), m.drv.config_reg2_], [0x40 ||| (3 <<< 2), m.drv.config_reg3_]] := by
  obtain ⟨d, l⟩ := m
  obtain ⟨a, w0, v0, w1, v1, w2, v2, w3, v3, x0, r0, x1, r1, x2, r2, x3, r3, -, -, -, -, -, h⟩ :=
    begin_eq dev cs_pin drdy_pin d l
  rw [emitted_of_log _ _ _ (congrArg Machine.log h),
    transactions_of_scan _ _ (scan_beginEvents [] _ _ _ _ _ _ _ _ _ _ _ _ _ _ _ _ _ _ _ _ _ _ _)]
  simp only [] at h0 h1 h2 h3
  simp [Transaction.shiftedOut, Nat.mod_eq_of_lt h0, Nat.mod_eq_of_lt h1, Nat.mod_eq_of_lt h2,
    Nat.mod_eq_of_lt h3]

theorem begin_writes_current_shadow_witness :
    ((Driver.fresh ⟨0, 0⟩).config_reg0_ < 256 ∧ (Driver.fresh ⟨0, 0⟩).config_reg1_ < 256 ∧
      (Driver.fresh ⟨0, 0⟩).config_reg2_ < 256 ∧ (Driver.fresh ⟨0, 0⟩).config_reg3_ < 256) ∧
    (transactions (emitted (begin (constant 0xFF) 10 14) ⟨Driver.fresh ⟨0, 0⟩, []⟩)).map
        (fun ts => ((ts.drop 1).take 4).map Transaction.shiftedOut)
      = some [[0x40, 0x04], [0x44, 0xD0], [0x48, 0x40], [0x4C, 0x00]] :=
  ⟨by decide,
    begin_writes_current_shadow (constant 0xFF) 10 14 ⟨Driver.fresh ⟨0, 0⟩, []⟩
      (by decide) (by decide) (by decide) (by decide)⟩

/-! ## Shape of a transaction -/

/-- C7: the transaction performed by each of `sendCommand`, `writeRegister`,
`readRegister` and `readADC` consists of exactly these events in this order:
acquire the bus with settings (4096000 Hz, MSB first, SPI mode 1); drive
chip-select low; wait 1 microsecond; the byte exchanges of the operation; wait
1 microsecond; drive chip-select high; release the bus. -/
theorem transaction_event_shape (dev : Device) (m : Machine) (cmd addr val : Nat) :
    (∃ r, emitted (sendCommand dev cmd) m =
        [Event.spiBeginTransaction ⟨4096000, BitOrder.MSBFIRST, DataMode.SPI_MODE1⟩,
         Event.digitalWrite m.drv.cs_pin_ Level.LOW, Event.delayMicroseconds 1,
         Event.spiTransfer (cmd % 256) r,
         Event.delayMicroseconds 1, Event.digitalWrite m.drv.cs_pin_ Level.HIGH,
         Event.spiEndTransaction]) ∧
    (∃ r1 r2, emitted (writeRegister dev addr val) m =
        [Event.spiBeginTransaction ⟨4096000, BitOrder.MSBFIRST, DataMode.SPI_MODE1⟩,
         Event.digitalWrite m.drv.cs_pin_ Level.LOW, Event.delayMicroseconds 1,
         Event.spiTransfer ((WREG ||| (addr <<< 2)) % 256) r1, Event.spiTransfer (val % 256) r2,
         Event.delayMicroseconds 1, Event.digitalWrite m.drv.cs_pin_ Level.HIGH,
         Event.spiEndTransaction]) ∧
    (∃ r1 r2, emitted (fun m => (readRegister dev addr m).2) m =
        [Event.spiBeginTransaction ⟨4096000, BitOrder.MSBFIRST, DataMode.SPI_MODE1⟩,
         Event.digitalWrite m.drv.cs_pin_ Level.LOW, Event.delayMicroseconds 1,
         Event.spiTransfer ((RREG ||| (addr <<< 2)) % 256) r1, Event.spiTransfer DUMMY r2,
         Event.delayMicroseconds 1, Event.digitalWrite m.drv.cs_pin_ Level.HIGH,
         Event.spiEndTransaction]) ∧
    (∃ r1 r2, emitted (readADC dev) m =
        [Event.spiBeginTransaction ⟨4096000, BitOrder.MSBFIRST, DataMode.SPI_MODE1⟩,
         Event.digitalWrite m.drv.cs_pin_ Level.LOW, Event.delayMicroseconds 1,
         Event.spiTransfer DUMMY r1, Event.spiTransfer DUMMY r2,
         Event.delayMicroseconds 1, Event.digitalWrite m.drv.cs_pin_ Level.HIGH,
         Event.spiEndTransaction]) := by
  obtain ⟨d, l⟩ := m
  refine ⟨?_, ?_, ?_, ?_⟩
  · obtain ⟨r, -, -, h⟩ := sendCommand_eq dev cmd d l
    exact ⟨r, emitted_of_log _ _ _ (congrArg Machine.log h)⟩
  · obtain ⟨r1, r2, -, -, -, h⟩ := writeRegister_eq dev addr val d l
    exact ⟨r1, r2, emitted_of_log _ _ _ (congrArg Machine.log h)⟩
  · obtain ⟨r1, r2, -, -, -, h⟩ := readRegister_eq dev addr d l
    exact ⟨r1, r2, emitted_of_log (fun m => (readRegister dev addr m).2) _ _
      (congrArg (fun p => p.2.log) h)⟩
  · obtain ⟨r1, r2, -, -, -, h⟩ := readADC_eq dev d l
    exact ⟨r1, r2, emitted_of_log _ _ _ (congrArg Machine.log h)⟩

/-! ## Commands -/

/-- C8: for every byte `cmd`, `sendCommand(cmd)` performs exactly one
transaction, containing exactly one byte exchange, which shifts out `cmd`; the
byte received in that exchange is dropped: the driver state (register shadow,
pin bindings, `analogData`) is the same after the call as before, for every
device. -/
theorem sendCommand_one_byte (dev : Device) (cmd : Nat) (m : Machine) (hc : cmd < 256) :
    (∃ r, transactions (emitted (sendCommand dev cmd) m) = some [⟨m.drv.cs_pin_, [(cmd, r)]⟩]) ∧
    (sendCommand dev cmd m).drv = m.drv := by
  obtain ⟨d, l⟩ := m
  obtain ⟨r, -, -, h⟩ := sendCommand_eq dev cmd d l
  refine ⟨⟨r, ?_⟩, by rw [h]⟩
  rw [emitted_of_log _ _ _ (congrArg Machine.log h),
    transactions_of_scan _ _ (scan_framed_one [] _ _ _), Nat.mod_eq_of_lt hc]
  rfl

theorem sendCommand_one_byte_witness :
    RESET < 256 ∧
    ((∃ r, transactions (emitted (sendCommand (constant 0xA5) RESET)
        ⟨Driver.fresh ⟨0x34, 0x12⟩, []⟩) = some [⟨10, [(0x06, r)]⟩]) ∧
      (sendCommand (constant 0xA5) RESET ⟨Driver.fresh ⟨0x34, 0x12⟩, []⟩).drv
        = Driver.fresh ⟨0x34, 0x12⟩) :=
  ⟨by decide, sendCommand_one_byte (constant 0xA5) RESET ⟨Driver.fresh ⟨0x34, 0x12⟩, []⟩
    (by decide)⟩

/-! ## Diagnostic line -/

theorem hexDigitUpper_ne_nul (d : Nat) : hexDigitUpper d ≠ Char.ofNat 0 := by
  by_cases h : d < 16
  · interval_cases d <;> decide
  · have hlen : "0123456789ABCDEF".toList.length ≤ d := by
      have : "0123456789ABCDEF".toList.length = 16 := by decide
      omega
    simp only [hexDigitUpper, List.getD_eq_getElem?_getD, List.getElem?_eq_none hlen]
    decide

theorem hexDigitUpper_bne_nul (d : Nat) : (hexDigitUpper d != Char.ofNat 0) = true := by
  simpa [bne_iff_ne] using hexDigitUpper_ne_nul d

theorem fmt02X_byte (b : Nat) (hb : b < 256) : fmt02X b = twoHexDigits b := by
  by_cases h : b < 16
  · have h0 : b / 16 = 0 := Nat.div_eq_of_lt h
    have h1 : b % 16 = b := Nat.mod_eq_of_lt h
    simp [fmt02X, hexDigitsUpper, twoHexDigits, h, h0, h1, List.replicate]
    decide
  · obtain ⟨k, rfl⟩ : ∃ k, b = k + 1 := ⟨b - 1, by omega⟩
    have h2 : (k + 1) / 16 < 16 := by omega
    simp [fmt02X, hexDigitsUpper, twoHexDigits, h, h2]

theorem cString_sprintfConfig (r0 r1 r2 r3 : Nat)
    (h0 : r0 < 256) (h1 : r1 < 256) (h2 : r2 < 256) (h3 : r3 < 256) :
    cString (sprintfConfig r0 r1 r2 r3 ++ [Char.ofNat 0]) = configLine r0 r1 r2 r3 := by
  simp [cString, sprintfConfig, configLine, fmt02X_byte, h0, h1, h2, h3, twoHexDigits,
    List.takeWhile, hexDigitUpper_bne_nul]

theorem printed_beginEvents (cs drdy c0 c1 c2 c3 : Nat)
    (a w0 v0 w1 v1 w2 v2 w3 v3 x0 r0 x1 r1 x2 r2 x3 r3 : Nat) :
    printed (beginEvents cs drdy c0 c1 c2 c3 a w0 v0 w1 v1 w2 v2 w3 v3 x0 r0 x1 r1 x2 r2 x3 r3)
      = [cString (sprintfConfig r0 r1 r2 r3 ++ [Char.ofNat 0])] := by
  simp [beginEvents, framed, printed]

/-- C9: for every four bytes `r0`, `r1`, `r2`, `r3` read back by the four
register reads of `begin`, the only line `begin` prints is "Config reg : "
followed by `r0`, `r1`, `r2`, `r3`, each as exactly two uppercase hexadecimal
digits, separated by single spaces. -/
theorem begin_diagnostic_line (dev : Device) (cs_pin drdy_pin : Nat) (m : Machine)
    (x0 r0 x1 r1 x2 r2 x3 r3 : Nat)
    (h : (transactions (emitted (begin dev cs_pin drdy_pin) m)).map (List.drop 5) = some
      [⟨cs_pin, [(0x20 ||| (0 <<< 2), x0), (DUMMY, r0)]⟩,
       ⟨cs_pin, [(0x20 ||| (1 <<< 2), x1), (DUMMY, r1)]⟩,
       ⟨cs_pin, [(0x20 ||| (2 <<< 2), x2), (DUMMY, r2)]⟩,
       ⟨cs_pin, [(0x20 ||| (3 <<< 2), x3), (DUMMY, r3)]⟩]) :
    printed (emitted (begin dev cs_pin drdy_pin) m) = [configLine r0 r1 r2 r3] := by
  obtain ⟨d, l⟩ := m
  obtain ⟨a, w0, v0, w1, v1, w2, v2, w3, v3, y0, s0, y1, s1, y2, s2, y3, s3,
    hs0, hs1, hs2, hs3, -, e⟩ := begin_eq dev cs_pin drdy_pin d l
  rw [emitted_of_log _ _ _ (congrArg Machine.log e)] at h ⊢
  rw [transactions_of_scan _ _ (scan_beginEvents [] _ _ _ _ _ _ _ _ _ _ _ _ _ _ _ _ _ _ _ _ _ _ _)]
    at h
  simp only [Option.map, List.nil_append, List.drop_succ_cons, List.drop_zero,
    Option.some.injEq, List.cons.injEq, Transaction.mk.injEq, Prod.mk.injEq, and_true,
    true_and] at h
  obtain ⟨⟨-, -, rfl⟩, ⟨-, -, rfl⟩, ⟨-, -, rfl⟩, -, -, rfl⟩ := h
  rw [printed_beginEvents, cString_sprintfConfig _ _ _ _ hs0 hs1 hs2 hs3]

theorem begin_diagnostic_line_witness :
    (transactions (emitted (begin (scripted [0, 0, 0, 0, 0, 0, 0, 0, 0, 0, 0x04, 0, 0xD0, 0, 0x40, 0, 0x00])
        10 14) ⟨Driver.fresh ⟨0, 0⟩, []⟩)).map (List.drop 5) = some
      [⟨10, [(0x20 ||| (0 <<< 2), 0), (DUMMY, 0x04)]⟩,
       ⟨10, [(0x20 ||| (1 <<< 2), 0), (DUMMY, 0xD0)]⟩,
       ⟨10, [(0x20 ||| (2 <<< 2), 0), (DUMMY, 0x40)]⟩,
       ⟨10, [(0x20 ||| (3 <<< 2), 0), (DUMMY, 0x00)]⟩] ∧
    printed (emitted (begin (scripted [0, 0, 0, 0, 0, 0, 0, 0, 0, 0, 0x04, 0, 0xD0, 0, 0x40, 0, 0x00])
        10 14) ⟨Driver.fresh ⟨0, 0⟩, []⟩) = ["Config reg : 04 D0 40 00".toList] :=
  ⟨by decide,
    (begin_diagnostic_line (scripted [0, 0, 0, 0, 0, 0, 0, 0, 0, 0, 0x04, 0, 0xD0, 0, 0x40, 0, 0x00])
      10 14 ⟨Driver.fresh ⟨0, 0⟩, []⟩ 0 0x04 0 0xD0 0 0x40 0 0x00 (by decide)).trans (by decide)⟩

/-- C10: for every four register values, the text `begin` formats with
`sprintf`, counted with its terminating NUL, is longer than the 24 bytes of
`message`; for four bytes it is exactly 25 bytes long. -/
theorem sprintf_overruns_message (r0 r1 r2 r3 : Nat) :
    messageSize < (sprintfConfig r0 r1 r2 r3 ++ [Char.ofNat 0]).length ∧
    (sprintfConfig 0x04 0xD0 0x40 0x00 ++ [Char.ofNat 0]).length = 25 := by
  have hlen : ∀ n, 2 ≤ (fmt02X n).length := by
    intro n
    simp only [fmt02X, List.length_append, List.length_replicate]
    omega
  have e0 := hlen r0
  have e1 := hlen r1
  have e2 := hlen r2
  have e3 := hlen r3
  refine ⟨?_, by decide⟩
  simp only [sprintfConfig, messageSize, List.length_append, List.length_singleton,
    show "Config reg : ".toList.length = 13 from by decide]
  omega

end ADS1120
